import Mathlib

/-!
# DORA Windows runner: clipboard and notification handlers

A shallow embedding of `windows/runner/clipboard_handler.cpp` and
`windows/runner/notification_handler.cpp`.

* The operating system is a parameter (`Win32`): every API call the handlers make is answered
  by a field of that record.  The k-th `OpenClipboard` call of a run either fails or hands out a
  `Clipboard`, the record of everything the process observes while it holds the clipboard.
* Every handler returns the list of `Event`s it produced, in program order: the OS calls that
  touch a resource and the calls on the `MethodResult` responder.
* `std::string` is a Lean `String`, `std::wstring` a list of UTF-16 code units, `UINT`/`DWORD`
  are natural numbers reduced modulo `2 ^ 32` where the source does arithmetic on them.
-/

namespace Dora

/-! ## Method-channel values -/

/-- Values carried by the method channel (`flutter::EncodableValue`): the alternatives of the
variant that a Dart caller can send to these handlers.  A map is its list of entries. -/
inductive EncodableValue where
  | null
  | bool (b : Bool)
  | int32 (n : Int)
  | int64 (n : Int)
  | double (bits : Nat)
  | string (s : String)
  | uint8List (bytes : List Nat)
  | list (items : List EncodableValue)
  | map (entries : List (EncodableValue × EncodableValue))

/-- An `EncodableMap`, as its entries. -/
abbrev EncodableMap := List (EncodableValue × EncodableValue)

/-- Whether a key of a map is the string `key`. -/
def EncodableValue.isKey (key : String) : EncodableValue → Bool
  | .string s => s == key
  | _ => false

/-- The value bound to the string key `key` in a map, if any. -/
def EncodableMap.lookup (m : EncodableMap) (key : String) : Option EncodableValue :=
  (List.find? (fun e => e.1.isKey key) m).map (fun e => e.2)

/-- The expression `(*arguments)[flutter::EncodableValue(key)]`, the `operator[]` of
`std::map`: the bound value, or a default-constructed (null) value when the key is absent. -/
def EncodableMap.index (m : EncodableMap) (key : String) : EncodableValue :=
  (EncodableMap.lookup m key).getD .null

/-- The call `std::get_if<std::string>(&v)`: the string held by `v`, or `none` for a null
pointer result. -/
def EncodableValue.getIfString : EncodableValue → Option String
  | .string s => some s
  | _ => none

/-- The call `std::get_if<flutter::EncodableMap>(p)`; `p` itself may be a null pointer. -/
def EncodableValue.getIfMap : Option EncodableValue → Option EncodableMap
  | some (.map m) => some m
  | _ => none

/-! ## Events -/

/-- What a handler does that is visible outside it: resource-affecting OS calls and calls on the
`MethodResult` responder. -/
inductive Event where
  | OpenClipboard (succeeded : Bool)
  | CloseClipboard
  | IsClipboardFormatAvailable (format : Nat)
  | GetClipboardData (format : Nat)
  | GlobalLock (hMem : Nat)
  | GlobalUnlock (hMem : Nat)
  | CreateStreamOnHGlobal
  | BitmapNew
  | BitmapSave
  | BitmapDelete
  | StreamStat
  | StreamSeek
  | StreamRead (cb : Nat)
  | StreamRelease
  | DragQueryFileW (iFile : Nat)
  | MessageBoxW (text caption : List Nat) (uType : Nat)
  | Success (value : EncodableValue)
  | Error (code message : String)
  | NotImplemented

/-! ## The operating system -/

/-- The clipboard format `CF_DIB`. -/
def CF_DIB : Nat := 8
/-- The clipboard format `CF_HDROP`. -/
def CF_HDROP : Nat := 15
/-- The `HRESULT` success code. -/
def S_OK : Nat := 0
/-- The GDI+ status `Gdiplus::Ok`. -/
def Ok : Nat := 0
/-- The modulus of `UINT`, `DWORD` and `ULONG`. -/
def UINT_MOD : Nat := 2 ^ 32

/-- A GDI+ `Bitmap` object: the status of its construction and the DIB bytes it was built
from. -/
structure Bitmap where
  lastStatus : Nat
  dib : List Nat

/-- What the process observes while it holds the clipboard after one successful
`OpenClipboard`: the answer of every OS and GDI+ call made before the matching
`CloseClipboard`. -/
structure Clipboard where
  /-- The call `IsClipboardFormatAvailable(format)`. -/
  IsClipboardFormatAvailable : Nat → Bool
  /-- The call `GetClipboardData(format)`: a handle, `none` for `NULL`. -/
  GetClipboardData : Nat → Option Nat
  /-- The call `GlobalLock(hMem)`: the bytes behind the returned pointer, `none` for `NULL`. -/
  GlobalLock : Nat → Option (List Nat)
  /-- The `HRESULT` of `CreateStreamOnHGlobal(NULL, TRUE, &pStream)`. -/
  CreateStreamOnHGlobal : Nat
  /-- The expression `new Bitmap((BITMAPINFO*)p, p)`: `none` for a null pointer. -/
  BitmapNew : List Nat → Option Bitmap
  /-- The call `pBitmap->Save(pStream, &clsidPng, NULL)`: its status and the bytes it wrote
  to the stream. -/
  BitmapSave : Bitmap → Nat × List Nat
  /-- The call `pStream->Stat(&stat, STATFLAG_NONAME)` on a stream holding the given bytes:
  its `HRESULT` and `stat.cbSize.QuadPart`. -/
  StreamStat : List Nat → Nat × Nat
  /-- The call `pStream->Read(buffer, cb, &bytesRead)` after seeking to 0: its `HRESULT` and
  the bytes it delivered. -/
  StreamRead : List Nat → Nat → Nat × List Nat
  /-- The call `CryptBinaryToStringA(bytes, n, BASE64 | NOCRLF, pszString, &len)`; the
  second argument is the capacity of `pszString`, `none` for `NULL`.  Answers the `BOOL`
  result, the value left in `len` and the characters written to `pszString`. -/
  CryptBinaryToStringA : List Nat → Option Nat → Bool × Nat × List Char
  /-- The call `DragQueryFileW(hDrop, iFile, lpszFile, cch)`; the third argument is `cch`
  for a non-null `lpszFile` and `none` for `nullptr`.  Answers the return value and the
  code units written to `lpszFile`. -/
  DragQueryFileW : Nat → Nat → Option Nat → Nat × List Nat

/-- The operating system as the handlers see it. -/
structure Win32 where
  /-- The k-th call `OpenClipboard(NULL)` of a run (counted from 0): `none` when it fails,
  otherwise what is observed until the clipboard is closed again. -/
  OpenClipboard : Nat → Option Clipboard
  /-- The call `WideCharToMultiByte(CP_UTF8, 0, src, cchWideChar, dst, cbMultiByte, ..)`;
  `cbMultiByte = 0` asks for the size only.  Answers the return value and the bytes written
  to `dst`. -/
  WideCharToMultiByte : List Nat → Int → Nat → Nat × List Char
  /-- The call `MultiByteToWideChar(CP_UTF8, 0, src, cbMultiByte, dst, cchWideChar)`;
  `cchWideChar = 0` asks for the size only.  Answers the return value and the code units
  written to `dst`. -/
  MultiByteToWideChar : String → Int → Nat → Nat × List Nat

/-- A buffer after an OS call wrote `written` at its start: nothing is written past its end. -/
def writeInto {α : Type} (buffer written : List α) : List α :=
  written.take buffer.length ++ buffer.drop written.length

/-- The call `v.resize(n)` on a string or vector; new elements are `fill`. -/
def resize {α : Type} (fill : α) (v : List α) (n : Nat) : List α :=
  v.take n ++ List.replicate (n - v.length) fill

/-- The conversion `static_cast<int>(n)` of a size. -/
def toInt (n : Nat) : Int :=
  if n % 2 ^ 32 < 2 ^ 31 then ((n % 2 ^ 32 : Nat) : Int) else ((n % 2 ^ 32 : Nat) : Int) - 2 ^ 32

/-- The number of `OpenClipboard` calls in a run so far. -/
def openCalls : List Event → Nat
  | [] => 0
  | .OpenClipboard _ :: rest => openCalls rest + 1
  | _ :: rest => openCalls rest

/-! ## clipboard_handler.cpp -/

namespace ClipboardHandler

/-- The method `ClipboardHandler::WideStringToUtf8`. -/
def WideStringToUtf8 (os : Win32) (wstr : List Nat) : String :=
  if wstr.isEmpty then
    ""
  else
    let size := (os.WideCharToMultiByte wstr (toInt wstr.length) 0).1
    let result : List Char := List.replicate size (Char.ofNat 0)
    let result := writeInto result (os.WideCharToMultiByte wstr (toInt wstr.length) size).2
    String.mk result

/-- The method `ClipboardHandler::GetClipboardImage`, when `k` calls of `OpenClipboard` came
before it: the returned string and the events, in order.  Each nesting level of the source is
one `let`: the events of a guarded block sit between the call that opens it and the release
that follows it. -/
def GetClipboardImage (os : Win32) (k : Nat) : String × List Event :=
  match os.OpenClipboard k with
  | none => ("", [.OpenClipboard false])
  | some cb =>
    let held : String × List Event :=
      if cb.IsClipboardFormatAvailable CF_DIB then
        match cb.GetClipboardData CF_DIB with
        | none => ("", [.GetClipboardData CF_DIB])
        | some hData =>
          match cb.GlobalLock hData with
          | none => ("", [.GetClipboardData CF_DIB, .GlobalLock hData])
          | some pDibData =>
            let locked : String × List Event :=
              if cb.CreateStreamOnHGlobal = S_OK then
                let streamed : String × List Event :=
                  match cb.BitmapNew pDibData with
                  | none => ("", [.BitmapNew])
                  | some pBitmap =>
                    if pBitmap.lastStatus = Ok then
                      let saved : String × List Event :=
                        let save := cb.BitmapSave pBitmap
                        if save.1 = Ok then
                          let stat := cb.StreamStat save.2
                          if stat.1 = S_OK then
                            let lowPart := stat.2 % UINT_MOD
                            let read := cb.StreamRead save.2 lowPart
                            let buffer := writeInto (List.replicate lowPart 0) read.2
                            let bytesRead := (read.2.take lowPart).length
                            if read.1 = S_OK then
                              let base64Len :=
                                (cb.CryptBinaryToStringA (buffer.take bytesRead) none).2.1
                              let crypt :=
                                cb.CryptBinaryToStringA (buffer.take bytesRead) (some base64Len)
                              let base64Buffer :=
                                writeInto (List.replicate base64Len (Char.ofNat 0)) crypt.2.2
                              if crypt.1 then
                                (String.mk (base64Buffer.take crypt.2.1),
                                  [.BitmapSave, .StreamStat, .StreamSeek, .StreamRead lowPart])
                              else
                                ("", [.BitmapSave, .StreamStat, .StreamSeek, .StreamRead lowPart])
                            else
                              ("", [.BitmapSave, .StreamStat, .StreamSeek, .StreamRead lowPart])
                          else
                            ("", [.BitmapSave, .StreamStat])
                        else
                          ("", [.BitmapSave])
                      (saved.1, [.BitmapNew] ++ saved.2 ++ [.BitmapDelete])
                    else
                      ("", [.BitmapNew])
                (streamed.1, [.CreateStreamOnHGlobal] ++ streamed.2 ++ [.StreamRelease])
              else
                ("", [.CreateStreamOnHGlobal])
            (locked.1,
              [.GetClipboardData CF_DIB, .GlobalLock hData] ++ locked.2 ++ [.GlobalUnlock hData])
      else
        ("", [])
    (held.1,
      [.OpenClipboard true, .IsClipboardFormatAvailable CF_DIB] ++ held.2 ++ [.CloseClipboard])

/-- One iteration of the loop of `GetClipboardImagePaths`, for index `i`: the paths and events
so far, extended. -/
def pathsStep (os : Win32) (cb : Clipboard) (drop : Nat) (acc : List String × List Event)
    (i : Nat) : List String × List Event :=
  let length := (cb.DragQueryFileW drop i none).1
  if length = 0 then
    (acc.1, acc.2 ++ [.DragQueryFileW i])
  else
    let buffer := List.replicate ((length + 1) % UINT_MOD) 0
    let buffer :=
      writeInto buffer (cb.DragQueryFileW drop i (some ((length + 1) % UINT_MOD))).2
    let buffer := resize 0 buffer length
    (acc.1 ++ [WideStringToUtf8 os buffer], acc.2 ++ [.DragQueryFileW i, .DragQueryFileW i])

/-- The method `ClipboardHandler::GetClipboardImagePaths`, when `k` calls of `OpenClipboard`
came before it: the returned vector and the events, in order.  The loop
`for (UINT i = 0; i < fileCount; ++i)` runs `pathsStep` over `0, .., fileCount - 1`. -/
def GetClipboardImagePaths (os : Win32) (k : Nat) : List String × List Event :=
  match os.OpenClipboard k with
  | none => ([], [.OpenClipboard false])
  | some cb =>
    let held : List String × List Event :=
      if cb.IsClipboardFormatAvailable CF_HDROP then
        match cb.GetClipboardData CF_HDROP with
        | none => ([], [.GetClipboardData CF_HDROP])
        | some hDrop =>
          let fileCount := (cb.DragQueryFileW hDrop 0xFFFFFFFF none).1
          List.foldl (pathsStep os cb hDrop)
            ([], [.GetClipboardData CF_HDROP, .DragQueryFileW 0xFFFFFFFF]) (List.range fileCount)
      else
        ([], [])
    (held.1,
      [.OpenClipboard true, .IsClipboardFormatAvailable CF_HDROP] ++ held.2 ++ [.CloseClipboard])

/-- The method `ClipboardHandler::HandleMethodCall`: the events of one call, the calls on
`result` included. -/
def HandleMethodCall (os : Win32) (method_name : String) (_arguments : Option EncodableValue) :
    List Event :=
  if method_name = "getClipboardImage" then
    let image := GetClipboardImage os 0
    let imageData := image.1
    if imageData ≠ "" then
      image.2 ++ [.Success (.map [(.string "type", .string "base64"),
        (.string "data", .string imageData)])]
    else
      let got := GetClipboardImagePaths os (openCalls image.2)
      let paths := got.1
      if paths ≠ [] then
        let list := paths.map EncodableValue.string
        image.2 ++ got.2 ++ [.Success (.map [(.string "type", .string "paths"),
          (.string "data", .list list)])]
      else
        image.2 ++ got.2 ++ [.Success (.map [(.string "type", .string "none")])]
  else
    [.NotImplemented]

end ClipboardHandler

/-! ## notification_handler.cpp -/

namespace NotificationHandler

/-- The flags `MB_OK | MB_ICONINFORMATION | MB_TOPMOST`. -/
def MB_FLAGS : Nat := 0x00000000 ||| 0x00000040 ||| 0x00040000

/-- The method `NotificationHandler::Utf8ToWideString`. -/
def Utf8ToWideString (os : Win32) (str : String) : List Nat :=
  if str = "" then
    []
  else
    let size_needed := (os.MultiByteToWideChar str (toInt str.utf8ByteSize) 0).1
    let wstrTo : List Nat := List.replicate size_needed 0
    writeInto wstrTo (os.MultiByteToWideChar str (toInt str.utf8ByteSize) size_needed).2

/-- The method `NotificationHandler::ShowNotification`: its events. -/
def ShowNotification (os : Win32) (_id title message : String) : List Event :=
  let wtitle := Utf8ToWideString os title
  let wmessage := Utf8ToWideString os message
  [.MessageBoxW wmessage wtitle MB_FLAGS]

/-- The method `NotificationHandler::HandleMethodCall`: the events of one call, the calls on
`result` included.  `arguments` is `none` for a null `method_call.arguments()`. -/
def HandleMethodCall (os : Win32) (method : String) (arguments : Option EncodableValue) :
    List Event :=
  if method = "initialize" then
    [.Success (.bool true)]
  else if method = "showNotification" then
    match EncodableValue.getIfMap arguments with
    | some arguments =>
      let id_value := (EncodableMap.index arguments "id").getIfString
      let title_value := (EncodableMap.index arguments "title").getIfString
      let message_value := (EncodableMap.index arguments "message").getIfString
      match id_value, title_value, message_value with
      | some id, some title, some message =>
        ShowNotification os id title message ++ [.Success (.bool true)]
      | _, _, _ => [.Error "INVALID_ARGUMENT" "Missing required arguments"]
    | none => [.Error "INVALID_ARGUMENT" "Invalid arguments"]
  else if method = "cancelNotification" then
    [.Success (.bool true)]
  else if method = "cancelAllNotifications" then
    [.Success (.bool true)]
  else
    [.NotImplemented]

end NotificationHandler

/-! ## Observations on runs -/

/-- Whether an event is a call on the `MethodResult` responder. -/
def Event.isResponse : Event → Bool
  | .Success _ => true
  | .Error _ _ => true
  | .NotImplemented => true
  | _ => false

/-- The calls on the responder made during a run, in order. -/
def responses (t : List Event) : List Event :=
  t.filter Event.isResponse

/-- Whether an event acquires, tries to acquire, or releases the clipboard. -/
def Event.isLock : Event → Bool
  | .OpenClipboard _ => true
  | .CloseClipboard => true
  | _ => false

/-- The `OpenClipboard` and `CloseClipboard` calls of a run, in order. -/
def lockEvents (t : List Event) : List Event :=
  t.filter Event.isLock

/-- Whether the process holds the clipboard after the events of a run. -/
def heldAfter (t : List Event) : Bool :=
  t.foldl (fun held e =>
    match e with
    | .OpenClipboard succeeded => held || succeeded
    | .CloseClipboard => false
    | _ => held) false

/-- Whether an event is a dialog shown to the user. -/
def Event.isDialog : Event → Bool
  | .MessageBoxW _ _ _ => true
  | _ => false

/-- An event inside a clipboard session: neither a lock call, nor a response, nor a dialog. -/
def Event.isInner (e : Event) : Bool :=
  !e.isLock && !e.isResponse && !e.isDialog

/-- The events of one iteration of the loop of `GetClipboardImagePaths`. -/
def stepEvents (cb : Clipboard) (drop i : Nat) : List Event :=
  if (cb.DragQueryFileW drop i none).1 = 0 then [.DragQueryFileW i]
  else [.DragQueryFileW i, .DragQueryFileW i]

/-- The paths added by one iteration of the loop of `GetClipboardImagePaths`. -/
def stepPaths (os : Win32) (cb : Clipboard) (drop i : Nat) : List String :=
  (ClipboardHandler.pathsStep os cb drop ([], []) i).1

/-- The events of the query `getClipboardImage` on the clipboard channel. -/
def clipboardQuery (os : Win32) (arguments : Option EncodableValue) : List Event :=
  ClipboardHandler.HandleMethodCall os "getClipboardImage" arguments

/-- The events of the call `showNotification` on the notification channel. -/
def showCall (os : Win32) (arguments : Option EncodableValue) : List Event :=
  NotificationHandler.HandleMethodCall os "showNotification" arguments

/-- The `type` entry of a response, when the response is `Success` with a map that binds
`type` to a string. -/
def Event.responseType : Event → Option String
  | .Success (.map m) => (EncodableMap.index m "type").getIfString
  | _ => none

/-- The response `Success({type: base64, data: text})`. -/
def base64Response (text : String) : Event :=
  .Success (.map [(.string "type", .string "base64"), (.string "data", .string text)])

/-- The response `Success({type: paths, data: [p1, ..]})`. -/
def pathsResponse (paths : List String) : Event :=
  .Success (.map [(.string "type", .string "paths"),
    (.string "data", .list (paths.map EncodableValue.string))])

/-- The response `Success({type: none})`. -/
def noneResponse : Event :=
  .Success (.map [(.string "type", .string "none")])

/-- The same clipboard, except that `format` is not reported as available. -/
def Clipboard.without (cb : Clipboard) (format : Nat) : Clipboard :=
  { cb with
    IsClipboardFormatAvailable := fun f =>
      if f = format then false else cb.IsClipboardFormatAvailable f }

/-- The same operating system, except that no acquisition of the clipboard reports
`format` as available. -/
def Win32.without (os : Win32) (format : Nat) : Win32 :=
  { os with OpenClipboard := fun k => (os.OpenClipboard k).map fun cb => cb.without format }

/-- The same operating system with no bitmap format (`CF_DIB`) on the clipboard. -/
def withoutBitmap (os : Win32) : Win32 :=
  os.without CF_DIB

/-- The same operating system with no file-drop format (`CF_HDROP`) on the clipboard. -/
def withoutFileDrop (os : Win32) : Win32 :=
  os.without CF_HDROP

/-- A clipboard holds a valid bitmap that encodes to `text`: the DIB is present and can be
locked, the stream is created, the bitmap decodes with status `Ok`, is saved as PNG, the
stream is read back, and the base64 conversion succeeds with the non-empty result `text`. -/
def HoldsValidBitmap (cb : Clipboard) (text : String) : Prop :=
  cb.IsClipboardFormatAvailable CF_DIB = true ∧
  ∃ hData pDibData pBitmap png size data input base64Len len written,
    cb.GetClipboardData CF_DIB = some hData ∧
    cb.GlobalLock hData = some pDibData ∧
    cb.CreateStreamOnHGlobal = S_OK ∧
    cb.BitmapNew pDibData = some pBitmap ∧
    pBitmap.lastStatus = Ok ∧
    cb.BitmapSave pBitmap = (Ok, png) ∧
    cb.StreamStat png = (S_OK, size) ∧
    cb.StreamRead png (size % UINT_MOD) = (S_OK, data) ∧
    input = List.take (List.take (size % UINT_MOD) data).length
      (writeInto (List.replicate (size % UINT_MOD) 0) data) ∧
    base64Len = (cb.CryptBinaryToStringA input none).2.1 ∧
    cb.CryptBinaryToStringA input (some base64Len) = (true, len, written) ∧
    text = String.mk (List.take len (writeInto (List.replicate base64Len (Char.ofNat 0)) written)) ∧
    text ≠ ""

/-- The UTF-8 bytes of one Unicode code point. -/
def utf8OfCodePoint (c : Nat) : List Nat :=
  if c < 0x80 then
    [c]
  else if c < 0x800 then
    [0xC0 + c / 64, 0x80 + c % 64]
  else if c < 0x10000 then
    [0xE0 + c / 4096, 0x80 + c / 64 % 64, 0x80 + c % 64]
  else
    [0xF0 + c / 262144, 0x80 + c / 4096 % 64, 0x80 + c / 64 % 64, 0x80 + c % 64]

/-- Whether a UTF-16 code unit is a high surrogate. -/
def isHighSurrogate (u : Nat) : Bool :=
  decide (0xD800 ≤ u) && decide (u < 0xDC00)

/-- Whether a UTF-16 code unit is a low surrogate. -/
def isLowSurrogate (u : Nat) : Bool :=
  decide (0xDC00 ≤ u) && decide (u < 0xE000)

/-- The UTF-8 conversion of the rest of a UTF-16 text, after `pending`, a high surrogate
still waiting for its low surrogate (`none` when there is none).  A surrogate pair is one code
point of four bytes; a surrogate without its partner becomes U+FFFD. -/
def utf16ToUtf8From : Option Nat → List Nat → List Nat
  | none, [] => []
  | some _, [] => utf8OfCodePoint 0xFFFD
  | none, u :: rest =>
    if isHighSurrogate u then
      utf16ToUtf8From (some u) rest
    else if isLowSurrogate u then
      utf8OfCodePoint 0xFFFD ++ utf16ToUtf8From none rest
    else
      utf8OfCodePoint u ++ utf16ToUtf8From none rest
  | some hi, u :: rest =>
    if isLowSurrogate u then
      utf8OfCodePoint (0x10000 + (hi - 0xD800) * 1024 + (u - 0xDC00)) ++
        utf16ToUtf8From none rest
    else if isHighSurrogate u then
      utf8OfCodePoint 0xFFFD ++ utf16ToUtf8From (some u) rest
    else
      utf8OfCodePoint 0xFFFD ++ utf8OfCodePoint u ++ utf16ToUtf8From none rest

/-- The UTF-8 conversion of UTF-16 text, the documented result of `WideCharToMultiByte` with
`CP_UTF8` and no flags. -/
def utf16ToUtf8 (wstr : List Nat) : List Nat :=
  utf16ToUtf8From none wstr

/-- The `std::string` that holds the UTF-8 conversion of UTF-16 text, one `char` per byte. -/
def utf8Text (wstr : List Nat) : String :=
  String.mk ((utf16ToUtf8 wstr).map Char.ofNat)

/-- The operating system converts `wstr` as documented: the size query of
`WideCharToMultiByte` answers the number of UTF-8 bytes, and the call with a buffer of that
size writes these bytes. -/
def ConvertsToUtf8 (os : Win32) (wstr : List Nat) : Prop :=
  (os.WideCharToMultiByte wstr (toInt wstr.length) 0).1 = (utf16ToUtf8 wstr).length ∧
    (os.WideCharToMultiByte wstr (toInt wstr.length) (utf16ToUtf8 wstr).length).2 =
      (utf16ToUtf8 wstr).map Char.ofNat

/-! ## Sample operating systems -/

namespace Sample

/-- A `WideCharToMultiByte` that converts as documented. -/
def wideToUtf8 (src : List Nat) (_cch : Int) (cbMultiByte : Nat) : Nat × List Char :=
  ((utf16ToUtf8 src).length,
    if cbMultiByte = 0 then [] else (utf16ToUtf8 src).map Char.ofNat)

/-- A `MultiByteToWideChar` for ASCII text: one code unit per byte. -/
def utf8ToWide (src : String) (_cb : Int) (cchWideChar : Nat) : Nat × List Nat :=
  (src.length, if cchWideChar = 0 then [] else src.data.map Char.toNat)

/-- A clipboard with no format on it. -/
def emptyClipboard : Clipboard where
  IsClipboardFormatAvailable := fun _ => false
  GetClipboardData := fun _ => none
  GlobalLock := fun _ => none
  CreateStreamOnHGlobal := S_OK
  BitmapNew := fun dib => some ⟨Ok, dib⟩
  BitmapSave := fun bmp => (Ok, bmp.dib)
  StreamStat := fun bytes => (S_OK, bytes.length)
  StreamRead := fun bytes cb => (S_OK, bytes.take cb)
  CryptBinaryToStringA := fun _ _ => (false, 0, [])
  DragQueryFileW := fun _ _ _ => (0, [])

/-- A `DragQueryFileW` over the dropped files `files`, as documented: the count for
`iFile = 0xFFFFFFFF`, the length of the name for a null buffer, and otherwise the name,
cut to `cch - 1` code units and terminated by 0. -/
def dragQuery (files : List (List Nat)) (_hDrop : Nat) (iFile : Nat) (cch : Option Nat) :
    Nat × List Nat :=
  if iFile = 0xFFFFFFFF then
    (files.length, [])
  else
    match files.get? iFile, cch with
    | none, _ => (0, [])
    | some name, none => (name.length, [])
    | some name, some n => (min name.length (n - 1), name.take (n - 1) ++ [0])

/-- A clipboard holding only the dropped files `files`, as handle 7. -/
def fileDropClipboard (files : List (List Nat)) : Clipboard :=
  { emptyClipboard with
    IsClipboardFormatAvailable := fun format => format == CF_HDROP
    GetClipboardData := fun format => if format = CF_HDROP then some 7 else none
    DragQueryFileW := dragQuery files }

/-- A clipboard holding a bitmap (handle 3, bytes `dib`) whose base64 text is `text`,
together with the dropped files `files` (handle 7).  The decoder accepts the bytes that
start with the header size 40 and ends with status 2 (`InvalidParameter`) on all others. -/
def imageAndFilesClipboard (dib : List Nat) (text : List Char)
    (files : List (List Nat)) : Clipboard :=
  { emptyClipboard with
    IsClipboardFormatAvailable := fun format => format == CF_DIB || format == CF_HDROP
    GetClipboardData := fun format =>
      if format = CF_DIB then some 3 else if format = CF_HDROP then some 7 else none
    GlobalLock := fun hMem => if hMem = 3 then some dib else none
    BitmapNew := fun bytes => some ⟨if bytes.head? = some 40 then Ok else 2, bytes⟩
    CryptBinaryToStringA := fun _ buffer =>
      match buffer with
      | none => (true, text.length + 1, [])
      | some _ => (true, text.length, text ++ [Char.ofNat 0])
    DragQueryFileW := dragQuery files }

/-- An operating system in which every `OpenClipboard` succeeds and shows `cb`. -/
def always (cb : Clipboard) : Win32 where
  OpenClipboard := fun _ => some cb
  WideCharToMultiByte := wideToUtf8
  MultiByteToWideChar := utf8ToWide

/-- An operating system in which the first `OpenClipboard` fails and every later one
succeeds and shows `cb`. -/
def busyOnce (cb : Clipboard) : Win32 where
  OpenClipboard := fun k => if k = 0 then none else some cb
  WideCharToMultiByte := wideToUtf8
  MultiByteToWideChar := utf8ToWide

/-- An operating system in which every `OpenClipboard` fails. -/
def busy : Win32 where
  OpenClipboard := fun _ => none
  WideCharToMultiByte := wideToUtf8
  MultiByteToWideChar := utf8ToWide

/-- The name `a.png` in UTF-16. -/
def aPng : List Nat := [97, 46, 112, 110, 103]
/-- The name `b.png` in UTF-16. -/
def bPng : List Nat := [98, 46, 112, 110, 103]
/-- The name `c.png` in UTF-16. -/
def cPng : List Nat := [99, 46, 112, 110, 103]
/-- The name `é.png` in UTF-16. -/
def ePng : List Nat := [233, 46, 112, 110, 103]

end Sample

/-! ## Lemmas on runs -/

theorem openCalls_append (a b : List Event) :
    openCalls (a ++ b) = openCalls a + openCalls b := by
  induction a with
  | nil => simp [openCalls]
  | cons e a ih => cases e <;> simp [openCalls, ih]; omega

theorem openCalls_inner (t : List Event) (h : ∀ e ∈ t, Event.isInner e = true) :
    openCalls t = 0 := by
  induction t with
  | nil => rfl
  | cons e t ih =>
    have he := h e (List.mem_cons_self _ _)
    have ht := ih (fun x hx => h x (List.mem_cons_of_mem _ hx))
    cases e <;> simp_all [openCalls, Event.isInner, Event.isLock]

theorem lockEvents_inner (t : List Event) (h : ∀ e ∈ t, Event.isInner e = true) :
    lockEvents t = [] := by
  simp only [lockEvents, List.filter_eq_nil_iff]
  intro e he
  have := h e he
  simp [Event.isInner] at this
  simp [this.1.1]

theorem responses_inner (t : List Event) (h : ∀ e ∈ t, Event.isInner e = true) :
    responses t = [] := by
  simp only [responses, List.filter_eq_nil_iff]
  intro e he
  have := h e he
  simp [Event.isInner] at this
  simp [this.1.2]

theorem heldAfter_close (t : List Event) : heldAfter (t ++ [.CloseClipboard]) = false := by
  simp [heldAfter, List.foldl_append]

theorem heldAfter_append_of_false (a b : List Event) (h : heldAfter a = false) :
    heldAfter (a ++ b) = heldAfter b := by
  simp only [heldAfter, List.foldl_append] at h ⊢
  rw [h]

theorem GetClipboardImage_shape (os : Win32) (k : Nat) :
    ∃ mid, (∀ e ∈ mid, Event.isInner e = true) ∧
      (ClipboardHandler.GetClipboardImage os k).2 =
        match os.OpenClipboard k with
        | none => [.OpenClipboard false]
        | some _ => .OpenClipboard true :: mid ++ [.CloseClipboard] := by
  unfold ClipboardHandler.GetClipboardImage
  cases h : os.OpenClipboard k with
  | none => exact ⟨[], by simp, rfl⟩
  | some cb =>
    simp only
    repeat' split
    all_goals refine ⟨_, ?_, rfl⟩
    all_goals simp [Event.isInner, Event.isLock, Event.isResponse, Event.isDialog]

theorem pathsStep_events (os : Win32) (cb : Clipboard) (drop : Nat)
    (acc : List String × List Event) (i : Nat) :
    (ClipboardHandler.pathsStep os cb drop acc i).2 = acc.2 ++ stepEvents cb drop i := by
  unfold ClipboardHandler.pathsStep stepEvents
  by_cases h : (cb.DragQueryFileW drop i none).1 = 0 <;> simp [h]

theorem pathsLoop_events (os : Win32) (cb : Clipboard) (drop : Nat) (l : List Nat)
    (acc : List String × List Event) :
    (List.foldl (ClipboardHandler.pathsStep os cb drop) acc l).2 =
      acc.2 ++ (l.map (stepEvents cb drop)).flatten := by
  induction l generalizing acc with
  | nil => simp
  | cons i l ih => simp [ih, pathsStep_events]

theorem stepEvents_inner (cb : Clipboard) (drop i : Nat) :
    ∀ e ∈ stepEvents cb drop i, Event.isInner e = true := by
  unfold stepEvents
  split <;> simp [Event.isInner, Event.isLock, Event.isResponse, Event.isDialog]

theorem GetClipboardImagePaths_shape (os : Win32) (k : Nat) :
    ∃ mid, (∀ e ∈ mid, Event.isInner e = true) ∧
      (ClipboardHandler.GetClipboardImagePaths os k).2 =
        match os.OpenClipboard k with
        | none => [.OpenClipboard false]
        | some _ => .OpenClipboard true :: mid ++ [.CloseClipboard] := by
  unfold ClipboardHandler.GetClipboardImagePaths
  cases h : os.OpenClipboard k with
  | none => exact ⟨[], by simp, rfl⟩
  | some cb =>
    simp only
    split
    · split
      · refine ⟨_, ?_, rfl⟩
        simp [Event.isInner, Event.isLock, Event.isResponse, Event.isDialog]
      · rename_i hDrop _
        refine ⟨[.IsClipboardFormatAvailable CF_HDROP, .GetClipboardData CF_HDROP,
          .DragQueryFileW 0xFFFFFFFF] ++ ((List.range
            (cb.DragQueryFileW hDrop 0xFFFFFFFF none).1).map (stepEvents cb hDrop)).flatten,
          ?_, ?_⟩
        · intro e he
          simp only [List.cons_append, List.nil_append, List.mem_cons, List.mem_flatten,
            List.mem_map] at he
          rcases he with rfl | rfl | rfl | ⟨_, ⟨i, _, rfl⟩, hi⟩
          · rfl
          · rfl
          · rfl
          · exact stepEvents_inner cb _ i e hi
        · simp [pathsLoop_events]
    · refine ⟨_, ?_, rfl⟩
      simp [Event.isInner, Event.isLock, Event.isResponse, Event.isDialog]

theorem responses_append (a b : List Event) :
    responses (a ++ b) = responses a ++ responses b := by
  simp [responses]

theorem lockEvents_append (a b : List Event) :
    lockEvents (a ++ b) = lockEvents a ++ lockEvents b := by
  simp [lockEvents]

theorem pathsStep_paths (os : Win32) (cb : Clipboard) (drop : Nat)
    (acc : List String × List Event) (i : Nat) :
    (ClipboardHandler.pathsStep os cb drop acc i).1 = acc.1 ++ stepPaths os cb drop i := by
  unfold stepPaths ClipboardHandler.pathsStep
  by_cases h : (cb.DragQueryFileW drop i none).1 = 0 <;> simp [h]

theorem pathsLoop_paths (os : Win32) (cb : Clipboard) (drop : Nat) (l : List Nat)
    (acc : List String × List Event) :
    (List.foldl (ClipboardHandler.pathsStep os cb drop) acc l).1 =
      acc.1 ++ (l.map (stepPaths os cb drop)).flatten := by
  induction l generalizing acc with
  | nil => simp
  | cons i l ih => simp [ih, pathsStep_paths]

theorem GetClipboardImage_busy (os : Win32) (k : Nat) (h : os.OpenClipboard k = none) :
    ClipboardHandler.GetClipboardImage os k = ("", [.OpenClipboard false]) := by
  simp [ClipboardHandler.GetClipboardImage, h]

theorem GetClipboardImagePaths_busy (os : Win32) (k : Nat) (h : os.OpenClipboard k = none) :
    ClipboardHandler.GetClipboardImagePaths os k = ([], [.OpenClipboard false]) := by
  simp [ClipboardHandler.GetClipboardImagePaths, h]

theorem GetClipboardImage_absent (os : Win32) (k : Nat) (cb : Clipboard)
    (h : os.OpenClipboard k = some cb) (hf : cb.IsClipboardFormatAvailable CF_DIB = false) :
    ClipboardHandler.GetClipboardImage os k =
      ("", [.OpenClipboard true, .IsClipboardFormatAvailable CF_DIB, .CloseClipboard]) := by
  simp [ClipboardHandler.GetClipboardImage, h, hf]

theorem GetClipboardImagePaths_absent (os : Win32) (k : Nat) (cb : Clipboard)
    (h : os.OpenClipboard k = some cb) (hf : cb.IsClipboardFormatAvailable CF_HDROP = false) :
    ClipboardHandler.GetClipboardImagePaths os k =
      ([], [.OpenClipboard true, .IsClipboardFormatAvailable CF_HDROP, .CloseClipboard]) := by
  simp [ClipboardHandler.GetClipboardImagePaths, h, hf]

theorem GetClipboardImagePaths_present (os : Win32) (k : Nat) (cb : Clipboard) (hDrop : Nat)
    (h : os.OpenClipboard k = some cb) (hf : cb.IsClipboardFormatAvailable CF_HDROP = true)
    (hd : cb.GetClipboardData CF_HDROP = some hDrop) :
    (ClipboardHandler.GetClipboardImagePaths os k).1 =
      ((List.range (cb.DragQueryFileW hDrop 0xFFFFFFFF none).1).map
        (stepPaths os cb hDrop)).flatten := by
  simp [ClipboardHandler.GetClipboardImagePaths, h, hf, hd, pathsLoop_paths]

theorem GetClipboardImage_openCalls (os : Win32) (k : Nat) :
    openCalls (ClipboardHandler.GetClipboardImage os k).2 = 1 := by
  obtain ⟨mid, hmid, heq⟩ := GetClipboardImage_shape os k
  rw [heq]
  cases os.OpenClipboard k with
  | none => rfl
  | some cb =>
    show openCalls (mid ++ [Event.CloseClipboard]) + 1 = 1
    rw [openCalls_append, openCalls_inner mid hmid]
    rfl

theorem GetClipboardImagePaths_openCalls (os : Win32) (k : Nat) :
    openCalls (ClipboardHandler.GetClipboardImagePaths os k).2 = 1 := by
  obtain ⟨mid, hmid, heq⟩ := GetClipboardImagePaths_shape os k
  rw [heq]
  cases os.OpenClipboard k with
  | none => rfl
  | some cb =>
    show openCalls (mid ++ [Event.CloseClipboard]) + 1 = 1
    rw [openCalls_append, openCalls_inner mid hmid]
    rfl

theorem responses_of_shape (os : Win32) (k : Nat) (mid t : List Event)
    (hmid : ∀ e ∈ mid, Event.isInner e = true)
    (heq : t = match os.OpenClipboard k with
      | none => [.OpenClipboard false]
      | some _ => .OpenClipboard true :: mid ++ [.CloseClipboard]) :
    responses t = [] := by
  rw [heq]
  cases os.OpenClipboard k with
  | none => rfl
  | some cb =>
    have h := responses_inner mid hmid
    simp only [responses] at h ⊢
    simp [List.filter_cons, List.filter_append, h, Event.isResponse]

theorem lockEvents_of_shape (os : Win32) (k : Nat) (mid t : List Event)
    (hmid : ∀ e ∈ mid, Event.isInner e = true)
    (heq : t = match os.OpenClipboard k with
      | none => [.OpenClipboard false]
      | some _ => .OpenClipboard true :: mid ++ [.CloseClipboard]) :
    lockEvents t =
      if (os.OpenClipboard k).isSome then [.OpenClipboard true, .CloseClipboard]
      else [.OpenClipboard false] := by
  rw [heq]
  cases os.OpenClipboard k with
  | none => rfl
  | some cb =>
    have h := lockEvents_inner mid hmid
    simp only [lockEvents] at h ⊢
    simp [List.filter_cons, List.filter_append, h, Event.isLock]

theorem heldAfter_of_shape (os : Win32) (k : Nat) (mid t : List Event)
    (heq : t = match os.OpenClipboard k with
      | none => [.OpenClipboard false]
      | some _ => .OpenClipboard true :: mid ++ [.CloseClipboard]) :
    heldAfter t = false := by
  rw [heq]
  cases os.OpenClipboard k with
  | none => rfl
  | some cb => exact heldAfter_close (.OpenClipboard true :: mid)

theorem getLast_of_shape (os : Win32) (k : Nat) (mid t : List Event)
    (heq : t = match os.OpenClipboard k with
      | none => [.OpenClipboard false]
      | some _ => .OpenClipboard true :: mid ++ [.CloseClipboard]) :
    t.getLast? =
      some (if (os.OpenClipboard k).isSome then .CloseClipboard else .OpenClipboard false) := by
  rw [heq]
  cases os.OpenClipboard k with
  | none => rfl
  | some cb =>
    show ((Event.OpenClipboard true :: mid) ++ [Event.CloseClipboard]).getLast? = _
    rw [List.getLast?_append]
    simp

theorem GetClipboardImage_responses (os : Win32) (k : Nat) :
    responses (ClipboardHandler.GetClipboardImage os k).2 = [] := by
  obtain ⟨mid, hmid, heq⟩ := GetClipboardImage_shape os k
  exact responses_of_shape os k mid _ hmid heq

theorem GetClipboardImagePaths_responses (os : Win32) (k : Nat) :
    responses (ClipboardHandler.GetClipboardImagePaths os k).2 = [] := by
  obtain ⟨mid, hmid, heq⟩ := GetClipboardImagePaths_shape os k
  exact responses_of_shape os k mid _ hmid heq

theorem clipboardQuery_eq (os : Win32) (arguments : Option EncodableValue) :
    clipboardQuery os arguments =
      if (ClipboardHandler.GetClipboardImage os 0).1 ≠ "" then
        (ClipboardHandler.GetClipboardImage os 0).2 ++
          [base64Response (ClipboardHandler.GetClipboardImage os 0).1]
      else
        (ClipboardHandler.GetClipboardImage os 0).2 ++
          (ClipboardHandler.GetClipboardImagePaths os 1).2 ++
          [if (ClipboardHandler.GetClipboardImagePaths os 1).1 ≠ [] then
            pathsResponse (ClipboardHandler.GetClipboardImagePaths os 1).1
          else noneResponse] := by
  simp only [clipboardQuery, ClipboardHandler.HandleMethodCall, GetClipboardImage_openCalls,
    base64Response, pathsResponse, noneResponse]
  by_cases h1 : (ClipboardHandler.GetClipboardImage os 0).1 = ""
  · by_cases h2 : (ClipboardHandler.GetClipboardImagePaths os 1).1 = [] <;> simp [h1, h2]
  · simp [h1]

theorem clipboardQuery_responses (os : Win32) (arguments : Option EncodableValue) :
    responses (clipboardQuery os arguments) =
      if (ClipboardHandler.GetClipboardImage os 0).1 ≠ "" then
        [base64Response (ClipboardHandler.GetClipboardImage os 0).1]
      else if (ClipboardHandler.GetClipboardImagePaths os 1).1 ≠ [] then
        [pathsResponse (ClipboardHandler.GetClipboardImagePaths os 1).1]
      else [noneResponse] := by
  rw [clipboardQuery_eq]
  split
  · rw [responses_append, GetClipboardImage_responses]
    rfl
  · rw [responses_append, responses_append, GetClipboardImage_responses,
      GetClipboardImagePaths_responses]
    split <;> rfl

/-! ## Claims -/

/-- Claim C3: a method name that neither handler knows gets exactly one event from each
handler, the `NotImplemented` response, whatever the arguments: no clipboard call is made and
no dialog is shown. -/
theorem unknown_method_not_implemented (os : Win32) (method : String)
    (arguments : Option EncodableValue) :
    (method ≠ "getClipboardImage" →
      ClipboardHandler.HandleMethodCall os method arguments = [.NotImplemented]) ∧
    (method ≠ "initialize" → method ≠ "showNotification" → method ≠ "cancelNotification" →
      method ≠ "cancelAllNotifications" →
      NotificationHandler.HandleMethodCall os method arguments = [.NotImplemented]) := by
  constructor
  · intro h
    simp [ClipboardHandler.HandleMethodCall, h]
  · intro h1 h2 h3 h4
    simp [NotificationHandler.HandleMethodCall, h1, h2, h3, h4]

/-- Witness for C3: the method `frobnicate` with an integer argument. -/
theorem unknown_method_not_implemented_witness :
    ClipboardHandler.HandleMethodCall Sample.busy "frobnicate" (some (.int32 5))
        = [.NotImplemented] ∧
      NotificationHandler.HandleMethodCall Sample.busy "frobnicate" (some (.int32 5))
        = [.NotImplemented] :=
  ⟨(unknown_method_not_implemented Sample.busy "frobnicate" (some (.int32 5))).1 (by decide),
    (unknown_method_not_implemented Sample.busy "frobnicate" (some (.int32 5))).2
      (by decide) (by decide) (by decide) (by decide)⟩

/-- Claim C4: in `GetClipboardImage` and in `GetClipboardImagePaths`, on every path, the
clipboard calls are one successful `OpenClipboard` followed by one `CloseClipboard`, which
is the last event of the function, or one failed `OpenClipboard` and no `CloseClipboard`;
so the clipboard is not held when a `getClipboardImage` query completes. -/
theorem clipboard_released_on_every_path (os : Win32) (k : Nat)
    (arguments : Option EncodableValue) :
    (lockEvents (ClipboardHandler.GetClipboardImage os k).2 =
        (if (os.OpenClipboard k).isSome then [.OpenClipboard true, .CloseClipboard]
          else [.OpenClipboard false]) ∧
      (ClipboardHandler.GetClipboardImage os k).2.getLast? =
        some (if (os.OpenClipboard k).isSome then .CloseClipboard else .OpenClipboard false)) ∧
    (lockEvents (ClipboardHandler.GetClipboardImagePaths os k).2 =
        (if (os.OpenClipboard k).isSome then [.OpenClipboard true, .CloseClipboard]
          else [.OpenClipboard false]) ∧
      (ClipboardHandler.GetClipboardImagePaths os k).2.getLast? =
        some (if (os.OpenClipboard k).isSome then .CloseClipboard else .OpenClipboard false)) ∧
    heldAfter (clipboardQuery os arguments) = false := by
  obtain ⟨mid1, hmid1, heq1⟩ := GetClipboardImage_shape os k
  obtain ⟨mid2, hmid2, heq2⟩ := GetClipboardImagePaths_shape os k
  refine ⟨⟨lockEvents_of_shape os k mid1 _ hmid1 heq1, getLast_of_shape os k mid1 _ heq1⟩,
    ⟨lockEvents_of_shape os k mid2 _ hmid2 heq2, getLast_of_shape os k mid2 _ heq2⟩, ?_⟩
  obtain ⟨m0, _, h0⟩ := GetClipboardImage_shape os 0
  obtain ⟨m1, _, h1⟩ := GetClipboardImagePaths_shape os 1
  have e0 := heldAfter_of_shape os 0 m0 _ h0
  have e1 := heldAfter_of_shape os 1 m1 _ h1
  rw [clipboardQuery_eq]
  split
  · rw [heldAfter_append_of_false _ _ e0]
    rfl
  · rw [List.append_assoc, heldAfter_append_of_false _ _ e0, heldAfter_append_of_false _ _ e1]
    split <;> rfl

/-- Claim C9: a `getClipboardImage` query makes exactly one call on the responder, a
`Success` carrying a map: type `base64` with a non-empty string as data, or type `paths`
with a non-empty list of strings as data, or type `none` with no data entry; when no
acquisition of the clipboard shows any format, the response is type `none`. -/
theorem query_responds_success_once (os : Win32) (arguments : Option EncodableValue) :
    (∃ r, responses (clipboardQuery os arguments) = [r] ∧
      ((∃ text, text ≠ "" ∧ r = .Success (.map [(.string "type", .string "base64"),
          (.string "data", .string text)])) ∨
        (∃ paths, paths ≠ [] ∧ r = .Success (.map [(.string "type", .string "paths"),
          (.string "data", .list (paths.map EncodableValue.string))])) ∨
        r = .Success (.map [(.string "type", .string "none")]))) ∧
    ((∀ k cb, os.OpenClipboard k = some cb →
        ∀ format, cb.IsClipboardFormatAvailable format = false) →
      responses (clipboardQuery os arguments) =
        [.Success (.map [(.string "type", .string "none")])]) := by
  constructor
  · rw [clipboardQuery_responses]
    split
    · rename_i h
      exact ⟨_, rfl, Or.inl ⟨_, h, rfl⟩⟩
    · split
      · rename_i h
        exact ⟨_, rfl, Or.inr (Or.inl ⟨_, h, rfl⟩)⟩
      · exact ⟨_, rfl, Or.inr (Or.inr rfl)⟩
  · intro hempty
    rw [clipboardQuery_responses]
    have himg : (ClipboardHandler.GetClipboardImage os 0).1 = "" := by
      cases h : os.OpenClipboard 0 with
      | none => rw [GetClipboardImage_busy os 0 h]
      | some cb => rw [GetClipboardImage_absent os 0 cb h (hempty 0 cb h _)]
    have hpaths : (ClipboardHandler.GetClipboardImagePaths os 1).1 = [] := by
      cases h : os.OpenClipboard 1 with
      | none => rw [GetClipboardImagePaths_busy os 1 h]
      | some cb => rw [GetClipboardImagePaths_absent os 1 cb h (hempty 1 cb h _)]
    simp [himg, hpaths, noneResponse]

/-- Witness for C9: the empty clipboard. -/
theorem query_responds_success_once_witness :
    responses (clipboardQuery (Sample.always Sample.emptyClipboard) none) =
      [.Success (.map [(.string "type", .string "none")])] :=
  (query_responds_success_once (Sample.always Sample.emptyClipboard) none).2
    (by intro k cb h format; cases h; rfl)

theorem GetClipboardImage_valid (os : Win32) (k : Nat) (cb : Clipboard) (text : String)
    (h : os.OpenClipboard k = some cb) (hv : HoldsValidBitmap cb text) :
    (ClipboardHandler.GetClipboardImage os k).1 = text := by
  obtain ⟨hf, hData, pDibData, pBitmap, png, size, data, input, base64Len, len, written,
    h1, h2, h3, h4, h5, h6, h7, h8, h9, h10, h11, h12, _⟩ := hv
  subst h9
  subst h10
  simp only [ClipboardHandler.GetClipboardImage, h, hf, h1, h2, h3, h4, h5, h6, h7, h8, h11,
    if_true]
  exact h12.symm

theorem GetClipboardImage_no_fileDrop_check (os : Win32) (k : Nat) :
    Event.IsClipboardFormatAvailable CF_HDROP ∉ (ClipboardHandler.GetClipboardImage os k).2 := by
  unfold ClipboardHandler.GetClipboardImage
  cases h : os.OpenClipboard k with
  | none => simp
  | some cb =>
    simp only
    repeat' split
    all_goals simp [CF_DIB, CF_HDROP]

/-- Claim C1: when the first `OpenClipboard` succeeds and the clipboard holds a valid bitmap
that encodes to the non-empty text `text`, the query answers `Success` with type `base64` and
`text` as data, whatever else the clipboard holds (dropped files included): it opens the
clipboard once only, never looks at the file-drop format, and gives no `paths` response. -/
theorem image_wins_over_paths (os : Win32) (arguments : Option EncodableValue)
    (cb : Clipboard) (text : String)
    (hopen : os.OpenClipboard 0 = some cb) (hvalid : HoldsValidBitmap cb text) :
    responses (clipboardQuery os arguments) =
        [.Success (.map [(.string "type", .string "base64"), (.string "data", .string text)])] ∧
      openCalls (clipboardQuery os arguments) = 1 ∧
      Event.IsClipboardFormatAvailable CF_HDROP ∉ clipboardQuery os arguments ∧
      ∀ paths, pathsResponse paths ∉ clipboardQuery os arguments := by
  have himg := GetClipboardImage_valid os 0 cb text hopen hvalid
  have hne : text ≠ "" := by
    obtain ⟨_, _, _, _, _, _, _, _, _, _, _, _, _, _, _, _, _, _, _, _, _, _, _, hne⟩ := hvalid
    exact hne
  have hq : clipboardQuery os arguments =
      (ClipboardHandler.GetClipboardImage os 0).2 ++ [base64Response text] := by
    rw [clipboardQuery_eq, himg]
    simp [hne]
  refine ⟨?_, ?_, ?_, ?_⟩
  · rw [hq, responses_append, GetClipboardImage_responses]
    rfl
  · rw [hq, openCalls_append, GetClipboardImage_openCalls]
    rfl
  · rw [hq]
    intro hmem
    rcases List.mem_append.1 hmem with hm | hm
    · exact GetClipboardImage_no_fileDrop_check os 0 hm
    · simp [base64Response] at hm
  · intro paths hmem
    rw [hq] at hmem
    have hr : pathsResponse paths ∈ responses
        ((ClipboardHandler.GetClipboardImage os 0).2 ++ [base64Response text]) := by
      simp only [responses, List.mem_filter]
      exact ⟨hmem, rfl⟩
    rw [responses_append, GetClipboardImage_responses] at hr
    simp [responses, base64Response, pathsResponse, Event.isResponse] at hr

/-- Witness for C1: a clipboard holding a bitmap that encodes to `QQ==` and the dropped file
`a.png`. -/
theorem image_wins_over_paths_witness :
    (ClipboardHandler.GetClipboardImagePaths (Sample.always
        (Sample.imageAndFilesClipboard [40, 0, 0] ['Q', 'Q', '=', '='] [Sample.aPng])) 1).1
          = ["a.png"] ∧
      responses (clipboardQuery (Sample.always
        (Sample.imageAndFilesClipboard [40, 0, 0] ['Q', 'Q', '=', '='] [Sample.aPng])) none) =
        [.Success (.map [(.string "type", .string "base64"),
          (.string "data", .string "QQ==")])] :=
  ⟨by decide,
    (image_wins_over_paths (Sample.always
        (Sample.imageAndFilesClipboard [40, 0, 0] ['Q', 'Q', '=', '='] [Sample.aPng])) none
      (Sample.imageAndFilesClipboard [40, 0, 0] ['Q', 'Q', '=', '='] [Sample.aPng]) "QQ==" rfl
      ⟨rfl, 3, [40, 0, 0], ⟨Ok, [40, 0, 0]⟩, [40, 0, 0], 3, [40, 0, 0], [40, 0, 0], 5, 4,
        ['Q', 'Q', '=', '=', Char.ofNat 0], rfl, rfl, rfl, rfl, rfl, rfl, rfl, rfl, rfl, rfl,
        rfl, rfl, by decide⟩).1⟩

/-- Counterexample to C5 as stated: the first `OpenClipboard` fails, the handler calls
`OpenClipboard` a second time, that call succeeds, and the response is type `paths`. -/
theorem busy_first_open_retried :
    (Sample.busyOnce (Sample.fileDropClipboard [Sample.aPng])).OpenClipboard 0 = none ∧
      openCalls (clipboardQuery (Sample.busyOnce (Sample.fileDropClipboard [Sample.aPng])) none)
        = 2 ∧
      clipboardQuery (Sample.busyOnce (Sample.fileDropClipboard [Sample.aPng])) none =
        [.OpenClipboard false, .OpenClipboard true, .IsClipboardFormatAvailable CF_HDROP,
          .GetClipboardData CF_HDROP, .DragQueryFileW 0xFFFFFFFF, .DragQueryFileW 0,
          .DragQueryFileW 0, .CloseClipboard,
          .Success (.map [(.string "type", .string "paths"),
            (.string "data", .list [.string "a.png"])])] ∧
      (responses (clipboardQuery (Sample.busyOnce (Sample.fileDropClipboard [Sample.aPng]))
        none)).map Event.responseType ≠ [some "none"] :=
  ⟨rfl, rfl, rfl, by decide⟩

/-- Claim C5, amended: when the first `OpenClipboard` fails, `GetClipboardImage` returns the
empty string at once with no other OS call, the handler then runs `GetClipboardImagePaths`,
which makes the second and last `OpenClipboard` call of the query, and the only response is a
`Success`; when that second call fails too, the events are the two failed calls followed by
`Success` with type `none`. -/
theorem busy_clipboard_degrades (os : Win32) (arguments : Option EncodableValue)
    (hbusy : os.OpenClipboard 0 = none) :
    ClipboardHandler.GetClipboardImage os 0 = ("", [.OpenClipboard false]) ∧
      clipboardQuery os arguments =
        .OpenClipboard false :: (ClipboardHandler.GetClipboardImagePaths os 1).2 ++
          [if (ClipboardHandler.GetClipboardImagePaths os 1).1 ≠ [] then
            pathsResponse (ClipboardHandler.GetClipboardImagePaths os 1).1
          else noneResponse] ∧
      openCalls (clipboardQuery os arguments) = 2 ∧
      (os.OpenClipboard 1 = none →
        clipboardQuery os arguments =
          [.OpenClipboard false, .OpenClipboard false,
            .Success (.map [(.string "type", .string "none")])]) := by
  have himg := GetClipboardImage_busy os 0 hbusy
  have hq : clipboardQuery os arguments =
      .OpenClipboard false :: (ClipboardHandler.GetClipboardImagePaths os 1).2 ++
        [if (ClipboardHandler.GetClipboardImagePaths os 1).1 ≠ [] then
          pathsResponse (ClipboardHandler.GetClipboardImagePaths os 1).1
        else noneResponse] := by
    rw [clipboardQuery_eq, himg]
    simp
  refine ⟨himg, hq, ?_, ?_⟩
  · rw [hq]
    show openCalls ((ClipboardHandler.GetClipboardImagePaths os 1).2 ++ _) + 1 = 2
    rw [openCalls_append, GetClipboardImagePaths_openCalls]
    split <;> rfl
  · intro h1
    rw [hq, GetClipboardImagePaths_busy os 1 h1]
    rfl

/-- Witness for the amended C5: every `OpenClipboard` fails. -/
theorem busy_clipboard_degrades_witness :
    clipboardQuery Sample.busy none =
      [.OpenClipboard false, .OpenClipboard false,
        .Success (.map [(.string "type", .string "none")])] :=
  (busy_clipboard_degrades Sample.busy none rfl).2.2.2 rfl

/-- Counterexample to C6 as stated: with the file-drop format present and zero paths, or
with every path skipped, the response is type `none`, the same response as for a clipboard
with no format at all, not type `paths` with an empty list. -/
theorem empty_file_drop_is_none :
    (Sample.fileDropClipboard []).IsClipboardFormatAvailable CF_HDROP = true ∧
      ((Sample.fileDropClipboard []).DragQueryFileW 7 0xFFFFFFFF none).1 = 0 ∧
      clipboardQuery (Sample.always (Sample.fileDropClipboard [])) none =
        [.OpenClipboard true, .IsClipboardFormatAvailable CF_DIB, .CloseClipboard,
          .OpenClipboard true, .IsClipboardFormatAvailable CF_HDROP,
          .GetClipboardData CF_HDROP, .DragQueryFileW 0xFFFFFFFF, .CloseClipboard,
          .Success (.map [(.string "type", .string "none")])] ∧
      responses (clipboardQuery (Sample.always (Sample.fileDropClipboard [[], []])) none) =
        [.Success (.map [(.string "type", .string "none")])] ∧
      responses (clipboardQuery (Sample.always (Sample.fileDropClipboard [])) none) =
        responses (clipboardQuery (Sample.always Sample.emptyClipboard) none) ∧
      (responses (clipboardQuery (Sample.always (Sample.fileDropClipboard [])) none)).map
        Event.responseType ≠ [some "paths"] :=
  ⟨rfl, rfl, rfl, rfl, rfl, by decide⟩

theorem pathsStep_congr (os os2 : Win32) (cb cb2 : Clipboard)
    (h1 : os2.WideCharToMultiByte = os.WideCharToMultiByte)
    (h2 : cb2.DragQueryFileW = cb.DragQueryFileW) :
    ClipboardHandler.pathsStep os2 cb2 = ClipboardHandler.pathsStep os cb := by
  funext drop acc i
  simp [ClipboardHandler.pathsStep, ClipboardHandler.WideStringToUtf8, h1, h2]

theorem without_open (os : Win32) (format k : Nat) (cb : Clipboard)
    (h : os.OpenClipboard k = some cb) :
    (os.without format).OpenClipboard k = some (cb.without format) := by
  simp [Win32.without, h]

theorem without_busy (os : Win32) (format k : Nat) (h : os.OpenClipboard k = none) :
    (os.without format).OpenClipboard k = none := by
  simp [Win32.without, h]

theorem GetClipboardImage_withoutFileDrop (os : Win32) (k : Nat) :
    (ClipboardHandler.GetClipboardImage (withoutFileDrop os) k).1 =
      (ClipboardHandler.GetClipboardImage os k).1 := by
  unfold ClipboardHandler.GetClipboardImage withoutFileDrop
  cases h : os.OpenClipboard k with
  | none => rw [without_busy os _ k h]
  | some cb =>
    rw [without_open os _ k cb h]
    simp [Clipboard.without, CF_DIB, CF_HDROP]

theorem GetClipboardImagePaths_withoutFileDrop (os : Win32) (k : Nat) :
    (ClipboardHandler.GetClipboardImagePaths (withoutFileDrop os) k).1 = [] := by
  unfold ClipboardHandler.GetClipboardImagePaths withoutFileDrop
  cases h : os.OpenClipboard k with
  | none => rw [without_busy os _ k h]
  | some cb =>
    rw [without_open os _ k cb h]
    simp [Clipboard.without]

theorem GetClipboardImagePaths_withoutBitmap (os : Win32) (k : Nat) :
    (ClipboardHandler.GetClipboardImagePaths (withoutBitmap os) k).1 =
      (ClipboardHandler.GetClipboardImagePaths os k).1 := by
  unfold ClipboardHandler.GetClipboardImagePaths withoutBitmap
  cases h : os.OpenClipboard k with
  | none => rw [without_busy os _ k h]
  | some cb =>
    rw [without_open os _ k cb h]
    have hstep := pathsStep_congr os (os.without CF_DIB) cb (cb.without CF_DIB) rfl rfl
    simp only [hstep]
    simp [Clipboard.without, CF_DIB, CF_HDROP]

theorem GetClipboardImage_withoutBitmap (os : Win32) (k : Nat) :
    (ClipboardHandler.GetClipboardImage (withoutBitmap os) k).1 = "" := by
  unfold ClipboardHandler.GetClipboardImage withoutBitmap
  cases h : os.OpenClipboard k with
  | none => rw [without_busy os _ k h]
  | some cb =>
    rw [without_open os _ k cb h]
    simp [Clipboard.without]

theorem stepPaths_skipped (os : Win32) (cb : Clipboard) (drop i : Nat)
    (h : (cb.DragQueryFileW drop i none).1 = 0) : stepPaths os cb drop i = [] := by
  simp [stepPaths, ClipboardHandler.pathsStep, h]

theorem flatten_map_eq_nil {α β : Type} (f : α → List β) (l : List α)
    (h : ∀ a ∈ l, f a = []) : (l.map f).flatten = [] := by
  induction l with
  | nil => rfl
  | cons a l ih =>
    simp [h a (List.mem_cons_self _ _), ih (fun x hx => h x (List.mem_cons_of_mem _ hx))]

theorem buffer_holds_entry (entry : List Nat) (h : entry.length + 1 < UINT_MOD) :
    resize 0 (writeInto (List.replicate ((entry.length + 1) % UINT_MOD) 0) (entry ++ [0]))
      entry.length = entry := by
  rw [Nat.mod_eq_of_lt h]
  simp [resize, writeInto, List.take_append_eq_append_take]

theorem stepPaths_entry (os : Win32) (cb : Clipboard) (drop i : Nat) (entry : List Nat)
    (hlen : (cb.DragQueryFileW drop i none).1 = entry.length) (hne : entry.length ≠ 0)
    (hfit : entry.length + 1 < UINT_MOD)
    (hcopy : (cb.DragQueryFileW drop i (some (entry.length + 1))).2 = entry ++ [0]) :
    stepPaths os cb drop i = [ClipboardHandler.WideStringToUtf8 os entry] := by
  have hmod : (entry.length + 1) % UINT_MOD = entry.length + 1 := Nat.mod_eq_of_lt hfit
  have hbuf := buffer_holds_entry entry hfit
  rw [hmod] at hbuf
  simp only [stepPaths, ClipboardHandler.pathsStep, hlen, hne, if_false, hmod, hcopy, hbuf,
    List.nil_append]

theorem flatten_map_filter {α β : Type} (p : α → Bool) (f : α → β) (g : α → List β)
    (l : List α) (h : ∀ a ∈ l, g a = if p a then [f a] else []) :
    (l.map g).flatten = (l.filter p).map f := by
  induction l with
  | nil => rfl
  | cons a l ih =>
    have ha := h a (List.mem_cons_self _ _)
    have hl := ih (fun x hx => h x (List.mem_cons_of_mem _ hx))
    cases hp : p a <;> simp [ha, hl, hp, List.filter_cons]

theorem getIfString_index (m : EncodableMap) (key s : String) :
    (EncodableMap.index m key).getIfString = some s ↔
      EncodableMap.lookup m key = some (.string s) := by
  unfold EncodableMap.index
  cases h : EncodableMap.lookup m key with
  | none => simp [EncodableValue.getIfString]
  | some v => cases v <;> simp [EncodableValue.getIfString]

theorem getIfMap_eq_some (arguments : Option EncodableValue) (m : EncodableMap) :
    EncodableValue.getIfMap arguments = some m ↔ arguments = some (.map m) := by
  cases arguments with
  | none => simp [EncodableValue.getIfMap]
  | some v => cases v <;> simp [EncodableValue.getIfMap]

theorem showCall_present (os : Win32) (m : EncodableMap) (id title message : String)
    (hid : EncodableMap.lookup m "id" = some (.string id))
    (htitle : EncodableMap.lookup m "title" = some (.string title))
    (hmessage : EncodableMap.lookup m "message" = some (.string message)) :
    showCall os (some (.map m)) =
      NotificationHandler.ShowNotification os id title message ++ [.Success (.bool true)] := by
  simp [showCall, NotificationHandler.HandleMethodCall, EncodableValue.getIfMap,
    EncodableMap.index, hid, htitle, hmessage, EncodableValue.getIfString]

theorem showCall_map_otherwise (os : Win32) (m : EncodableMap)
    (h : ¬ ∃ id title message,
      EncodableMap.lookup m "id" = some (.string id) ∧
      EncodableMap.lookup m "title" = some (.string title) ∧
      EncodableMap.lookup m "message" = some (.string message)) :
    showCall os (some (.map m)) =
      [.Error "INVALID_ARGUMENT" "Missing required arguments"] := by
  unfold showCall NotificationHandler.HandleMethodCall
  rw [if_neg (by decide), if_pos rfl]
  simp only [EncodableValue.getIfMap]
  split
  · rename_i id title message h1 h2 h3
    exact absurd ⟨id, title, message, (getIfString_index _ _ _).1 h1,
      (getIfString_index _ _ _).1 h2, (getIfString_index _ _ _).1 h3⟩ h
  · rfl

theorem showCall_not_map (os : Win32) (arguments : Option EncodableValue)
    (h : ∀ m, arguments ≠ some (.map m)) :
    showCall os arguments = [.Error "INVALID_ARGUMENT" "Invalid arguments"] := by
  unfold showCall NotificationHandler.HandleMethodCall
  rw [if_neg (by decide), if_pos rfl]
  cases hm : EncodableValue.getIfMap arguments with
  | none => rfl
  | some m => exact absurd ((getIfMap_eq_some _ _).1 hm) (h m)

theorem showCall_otherwise (os : Win32) (arguments : Option EncodableValue)
    (h : ¬ ∃ m id title message, arguments = some (.map m) ∧
      EncodableMap.lookup m "id" = some (.string id) ∧
      EncodableMap.lookup m "title" = some (.string title) ∧
      EncodableMap.lookup m "message" = some (.string message)) :
    showCall os arguments = [.Error "INVALID_ARGUMENT" "Missing required arguments"] ∨
      showCall os arguments = [.Error "INVALID_ARGUMENT" "Invalid arguments"] := by
  by_cases hm : ∃ m, arguments = some (.map m)
  · obtain ⟨m, rfl⟩ := hm
    left
    apply showCall_map_otherwise
    rintro ⟨id, title, message, h1, h2, h3⟩
    exact h ⟨m, id, title, message, rfl, h1, h2, h3⟩
  · right
    apply showCall_not_map
    intro m hmap
    exact hm ⟨m, hmap⟩

/-- Claim C2: for an argument map `m`, `showNotification` shows the dialog and then answers
`Success(true)` when `id`, `title` and `message` are bound to strings; when one of the three
keys is absent, its only event is the error `INVALID_ARGUMENT`, so no dialog is shown. -/
theorem showNotification_requires_fields (os : Win32) (m : EncodableMap) :
    (∀ id title message,
      EncodableMap.lookup m "id" = some (.string id) →
      EncodableMap.lookup m "title" = some (.string title) →
      EncodableMap.lookup m "message" = some (.string message) →
      showCall os (some (.map m)) =
        [.MessageBoxW (NotificationHandler.Utf8ToWideString os message)
          (NotificationHandler.Utf8ToWideString os title) NotificationHandler.MB_FLAGS,
          .Success (.bool true)]) ∧
    (EncodableMap.lookup m "id" = none ∨ EncodableMap.lookup m "title" = none ∨
        EncodableMap.lookup m "message" = none →
      showCall os (some (.map m)) =
        [.Error "INVALID_ARGUMENT" "Missing required arguments"]) := by
  constructor
  · intro id title message hid htitle hmessage
    rw [showCall_present os m id title message hid htitle hmessage]
    rfl
  · intro habsent
    apply showCall_map_otherwise
    rintro ⟨id, title, message, h1, h2, h3⟩
    rcases habsent with h | h | h
    · rw [h] at h1; cases h1
    · rw [h] at h2; cases h2
    · rw [h] at h3; cases h3

/-- Witness for C2: the call with `id = "1"`, `title = "Hi"`, `message = "There"`, and the
same call with `title` left out. -/
theorem showNotification_requires_fields_witness :
    showCall Sample.busy (some (.map [(.string "id", .string "1"),
        (.string "title", .string "Hi"), (.string "message", .string "There")])) =
      [.MessageBoxW [84, 104, 101, 114, 101] [72, 105] 0x40040, .Success (.bool true)] ∧
    showCall Sample.busy (some (.map [(.string "id", .string "1"),
        (.string "message", .string "There")])) =
      [.Error "INVALID_ARGUMENT" "Missing required arguments"] :=
  ⟨(showNotification_requires_fields Sample.busy [(.string "id", .string "1"),
      (.string "title", .string "Hi"), (.string "message", .string "There")]).1
      "1" "Hi" "There" rfl rfl rfl,
    (showNotification_requires_fields Sample.busy [(.string "id", .string "1"),
      (.string "message", .string "There")]).2 (Or.inr (Or.inl rfl))⟩

/-- Claim C10: `showNotification` answers `Success(true)` exactly when the arguments are a
map binding `id`, `title` and `message` to strings; then its events are those of
`ShowNotification` on these three strings, a single dialog, followed by the response; in
every other case its only event is an error with code `INVALID_ARGUMENT`. -/
theorem showNotification_success_iff (os : Win32) (arguments : Option EncodableValue) :
    (responses (showCall os arguments) = [.Success (.bool true)] ↔
      ∃ m id title message, arguments = some (.map m) ∧
        EncodableMap.lookup m "id" = some (.string id) ∧
        EncodableMap.lookup m "title" = some (.string title) ∧
        EncodableMap.lookup m "message" = some (.string message)) ∧
    (∀ m id title message, arguments = some (.map m) →
      EncodableMap.lookup m "id" = some (.string id) →
      EncodableMap.lookup m "title" = some (.string title) →
      EncodableMap.lookup m "message" = some (.string message) →
      showCall os arguments =
          NotificationHandler.ShowNotification os id title message ++
            [.Success (.bool true)] ∧
        NotificationHandler.ShowNotification os id title message =
          [.MessageBoxW (NotificationHandler.Utf8ToWideString os message)
            (NotificationHandler.Utf8ToWideString os title) NotificationHandler.MB_FLAGS]) ∧
    ((¬ ∃ m id title message, arguments = some (.map m) ∧
        EncodableMap.lookup m "id" = some (.string id) ∧
        EncodableMap.lookup m "title" = some (.string title) ∧
        EncodableMap.lookup m "message" = some (.string message)) →
      ∃ text, showCall os arguments = [.Error "INVALID_ARGUMENT" text]) := by
  refine ⟨⟨?_, ?_⟩, ?_, ?_⟩
  · intro hresp
    by_contra hnot
    rcases showCall_otherwise os arguments hnot with h | h <;>
      · rw [h] at hresp
        simp [responses, Event.isResponse] at hresp
  · rintro ⟨m, id, title, message, rfl, h1, h2, h3⟩
    rw [showCall_present os m id title message h1 h2 h3]
    rfl
  · rintro m id title message rfl h1 h2 h3
    exact ⟨showCall_present os m id title message h1 h2 h3, rfl⟩
  · intro hnot
    rcases showCall_otherwise os arguments hnot with h | h
    · exact ⟨_, h⟩
    · exact ⟨_, h⟩

/-- Witness for C10: a call with three strings is shown and accepted, a call whose `title`
is bound to an integer is refused. -/
theorem showNotification_success_iff_witness :
    (showCall Sample.busy (some (.map [(.string "id", .string "1"),
        (.string "title", .string "Hi"), (.string "message", .string "There")])) =
      NotificationHandler.ShowNotification Sample.busy "1" "Hi" "There" ++
        [.Success (.bool true)] ∧
      NotificationHandler.ShowNotification Sample.busy "1" "Hi" "There" =
        [.MessageBoxW [84, 104, 101, 114, 101] [72, 105] 0x40040]) ∧
    ∃ text, showCall Sample.busy (some (.map [(.string "id", .string "1"),
        (.string "title", .int32 7), (.string "message", .string "There")])) =
      [.Error "INVALID_ARGUMENT" text] :=
  ⟨(showNotification_success_iff Sample.busy (some (.map [(.string "id", .string "1"),
      (.string "title", .string "Hi"), (.string "message", .string "There")]))).2.1
      [(.string "id", .string "1"), (.string "title", .string "Hi"),
        (.string "message", .string "There")] "1" "Hi" "There" rfl rfl rfl rfl,
    (showNotification_success_iff Sample.busy (some (.map [(.string "id", .string "1"),
      (.string "title", .int32 7), (.string "message", .string "There")]))).2.2
    (by
      rintro ⟨m, id, title, message, hm, _, h2, _⟩
      cases hm
      cases h2)⟩

theorem GetClipboardImagePaths_all_skipped (os : Win32) (k : Nat) (cb : Clipboard)
    (hopen : os.OpenClipboard k = some cb)
    (hskip : ∀ hDrop, cb.GetClipboardData CF_HDROP = some hDrop →
      ∀ i, i < (cb.DragQueryFileW hDrop 0xFFFFFFFF none).1 →
        (cb.DragQueryFileW hDrop i none).1 = 0) :
    (ClipboardHandler.GetClipboardImagePaths os k).1 = [] := by
  by_cases hformat : cb.IsClipboardFormatAvailable CF_HDROP = true
  · cases hdata : cb.GetClipboardData CF_HDROP with
    | none => simp [ClipboardHandler.GetClipboardImagePaths, hopen, hformat, hdata]
    | some hDrop =>
      rw [GetClipboardImagePaths_present os k cb hDrop hopen hformat hdata]
      apply flatten_map_eq_nil
      intro i hi
      exact stepPaths_skipped os cb hDrop i (hskip hDrop hdata i (List.mem_range.1 hi))
  · rw [GetClipboardImagePaths_absent os k cb hopen (by simpa using hformat)]

theorem pathsResponse_mem_nonempty (os : Win32) (arguments : Option EncodableValue)
    (paths : List String) (hmem : pathsResponse paths ∈ clipboardQuery os arguments) :
    paths ≠ [] := by
  have hr : pathsResponse paths ∈ responses (clipboardQuery os arguments) := by
    simp only [responses, List.mem_filter]
    exact ⟨hmem, rfl⟩
  rw [clipboardQuery_responses] at hr
  intro hnil
  subst hnil
  split at hr
  · simp [pathsResponse, base64Response] at hr
  · split at hr
    · rename_i hne
      simp [pathsResponse] at hr
      exact hne hr
    · simp [pathsResponse, noneResponse] at hr

/-- Claim C6, amended: when the clipboard yields no image text and the file-drop format is
present with zero paths, or with every path skipped by a zero length query, the query
answers `Success` with type `none`, which is also its response when no file-drop format is
present at all; and a `Success` with type `paths` among the events of a query always carries
a non-empty list. -/
theorem empty_file_drop_answers_none (os : Win32) (arguments : Option EncodableValue) :
    (∀ cb, (ClipboardHandler.GetClipboardImage os 0).1 = "" →
      os.OpenClipboard 1 = some cb →
      cb.IsClipboardFormatAvailable CF_HDROP = true →
      (∀ hDrop, cb.GetClipboardData CF_HDROP = some hDrop →
        ∀ i, i < (cb.DragQueryFileW hDrop 0xFFFFFFFF none).1 →
          (cb.DragQueryFileW hDrop i none).1 = 0) →
      responses (clipboardQuery os arguments) =
          [.Success (.map [(.string "type", .string "none")])] ∧
        responses (clipboardQuery (withoutFileDrop os) arguments) =
          responses (clipboardQuery os arguments)) ∧
    (∀ paths : List String,
      Event.Success (.map [(.string "type", .string "paths"),
          (.string "data", .list (paths.map EncodableValue.string))]) ∈
        clipboardQuery os arguments →
      paths ≠ []) := by
  constructor
  · intro cb himage hopen _ hskip
    have hpaths := GetClipboardImagePaths_all_skipped os 1 cb hopen hskip
    have h1 : responses (clipboardQuery os arguments) = [noneResponse] := by
      rw [clipboardQuery_responses]
      simp [himage, hpaths]
    refine ⟨h1, ?_⟩
    rw [h1, clipboardQuery_responses, GetClipboardImage_withoutFileDrop,
      GetClipboardImagePaths_withoutFileDrop]
    simp [himage]
  · intro paths hmem
    exact pathsResponse_mem_nonempty os arguments paths hmem

/-- Witness for the amended C6: the file-drop format with two entries, both skipped, and a
`paths` response that carries the single dropped file. -/
theorem empty_file_drop_answers_none_witness :
    responses (clipboardQuery (Sample.always (Sample.fileDropClipboard [[], []])) none) =
        [.Success (.map [(.string "type", .string "none")])] ∧
      Event.Success (.map [(.string "type", .string "paths"),
          (.string "data", .list (["a.png"].map EncodableValue.string))]) ∈
        clipboardQuery (Sample.always (Sample.fileDropClipboard [Sample.aPng])) none ∧
      ["a.png"] ≠ [] := by
  have hmem : Event.Success (.map [(.string "type", .string "paths"),
      (.string "data", .list (["a.png"].map EncodableValue.string))]) ∈
      clipboardQuery (Sample.always (Sample.fileDropClipboard [Sample.aPng])) none := by
    rw [show clipboardQuery (Sample.always (Sample.fileDropClipboard [Sample.aPng])) none =
      [.OpenClipboard true, .IsClipboardFormatAvailable CF_DIB, .CloseClipboard,
        .OpenClipboard true, .IsClipboardFormatAvailable CF_HDROP,
        .GetClipboardData CF_HDROP, .DragQueryFileW 0xFFFFFFFF, .DragQueryFileW 0,
        .DragQueryFileW 0, .CloseClipboard,
        .Success (.map [(.string "type", .string "paths"),
          (.string "data", .list [.string "a.png"])])] from rfl]
    simp
  exact ⟨((empty_file_drop_answers_none (Sample.always (Sample.fileDropClipboard [[], []]))
      none).1 (Sample.fileDropClipboard [[], []]) rfl rfl rfl
      (by
        intro hDrop hd
        cases hd
        decide)).1,
    hmem,
    (empty_file_drop_answers_none (Sample.always (Sample.fileDropClipboard [Sample.aPng]))
      none).2 ["a.png"] hmem⟩

theorem GetClipboardImage_decode_failure (os : Win32) (k : Nat) (cb : Clipboard)
    (hData : Nat) (pDibData : List Nat) (pBitmap : Bitmap)
    (hopen : os.OpenClipboard k = some cb)
    (hformat : cb.IsClipboardFormatAvailable CF_DIB = true)
    (hdata : cb.GetClipboardData CF_DIB = some hData)
    (hlock : cb.GlobalLock hData = some pDibData)
    (hstream : cb.CreateStreamOnHGlobal = S_OK)
    (hbitmap : cb.BitmapNew pDibData = some pBitmap)
    (hstatus : pBitmap.lastStatus ≠ Ok) :
    ClipboardHandler.GetClipboardImage os k =
      ("", [.OpenClipboard true, .IsClipboardFormatAvailable CF_DIB,
        .GetClipboardData CF_DIB, .GlobalLock hData, .CreateStreamOnHGlobal, .BitmapNew,
        .StreamRelease, .GlobalUnlock hData, .CloseClipboard]) := by
  simp [ClipboardHandler.GetClipboardImage, hopen, hformat, hdata, hlock, hstream, hbitmap,
    hstatus]

/-- Claim C8: when the first acquisition shows a bitmap format whose data is locked, the
stream is created and the `Bitmap` constructed from the locked bytes has a status other than
`Ok`, `GetClipboardImage` returns the empty string after releasing the stream, the memory
and the clipboard, and the query goes on to the file-drop check: its response is the one it
gives for the same operating system with no bitmap format present, which is type `paths`
when `GetClipboardImagePaths` yields at least one path and type `none` otherwise. -/
theorem decode_failure_falls_back (os : Win32) (arguments : Option EncodableValue)
    (cb : Clipboard) (hData : Nat) (pDibData : List Nat) (pBitmap : Bitmap)
    (hopen : os.OpenClipboard 0 = some cb)
    (hformat : cb.IsClipboardFormatAvailable CF_DIB = true)
    (hdata : cb.GetClipboardData CF_DIB = some hData)
    (hlock : cb.GlobalLock hData = some pDibData)
    (hstream : cb.CreateStreamOnHGlobal = S_OK)
    (hbitmap : cb.BitmapNew pDibData = some pBitmap)
    (hstatus : pBitmap.lastStatus ≠ Ok) :
    ClipboardHandler.GetClipboardImage os 0 =
        ("", [.OpenClipboard true, .IsClipboardFormatAvailable CF_DIB,
          .GetClipboardData CF_DIB, .GlobalLock hData, .CreateStreamOnHGlobal, .BitmapNew,
          .StreamRelease, .GlobalUnlock hData, .CloseClipboard]) ∧
      responses (clipboardQuery os arguments) =
        responses (clipboardQuery (withoutBitmap os) arguments) ∧
      responses (clipboardQuery os arguments) =
        (if (ClipboardHandler.GetClipboardImagePaths os 1).1 ≠ [] then
          [.Success (.map [(.string "type", .string "paths"),
            (.string "data", .list ((ClipboardHandler.GetClipboardImagePaths os 1).1.map
              EncodableValue.string))])]
        else [.Success (.map [(.string "type", .string "none")])]) := by
  have hrun := GetClipboardImage_decode_failure os 0 cb hData pDibData pBitmap hopen hformat
    hdata hlock hstream hbitmap hstatus
  have himage : (ClipboardHandler.GetClipboardImage os 0).1 = "" := by rw [hrun]
  have h1 : responses (clipboardQuery os arguments) =
      (if (ClipboardHandler.GetClipboardImagePaths os 1).1 ≠ [] then
        [pathsResponse (ClipboardHandler.GetClipboardImagePaths os 1).1]
      else [noneResponse]) := by
    rw [clipboardQuery_responses]
    simp [himage]
  refine ⟨hrun, ?_, h1⟩
  rw [h1, clipboardQuery_responses, GetClipboardImage_withoutBitmap,
    GetClipboardImagePaths_withoutBitmap]
  simp

/-- Witness for C8: a bitmap whose bytes the decoder refuses with status 2
(`InvalidParameter`), while it accepts other bitmaps, next to two dropped files. -/
theorem decode_failure_falls_back_witness :
    ((Sample.imageAndFilesClipboard [66, 77, 0] ['Q', 'Q', '=', '=']
        [Sample.aPng, Sample.bPng]).BitmapNew [40, 0, 0]).map Bitmap.lastStatus = some Ok ∧
      responses (clipboardQuery (Sample.always (Sample.imageAndFilesClipboard [66, 77, 0]
        ['Q', 'Q', '=', '='] [Sample.aPng, Sample.bPng])) none) =
        [.Success (.map [(.string "type", .string "paths"),
          (.string "data", .list [.string "a.png", .string "b.png"])])] :=
  ⟨rfl,
    (decode_failure_falls_back (Sample.always (Sample.imageAndFilesClipboard [66, 77, 0]
        ['Q', 'Q', '=', '='] [Sample.aPng, Sample.bPng])) none
      (Sample.imageAndFilesClipboard [66, 77, 0] ['Q', 'Q', '=', '=']
        [Sample.aPng, Sample.bPng]) 3 [66, 77, 0] ⟨2, [66, 77, 0]⟩
      rfl rfl rfl rfl rfl rfl (by decide)).2.2⟩

theorem WideStringToUtf8_documented (os : Win32) (wstr : List Nat) (hne : wstr ≠ [])
    (hos : ConvertsToUtf8 os wstr) :
    ClipboardHandler.WideStringToUtf8 os wstr = utf8Text wstr := by
  obtain ⟨hsize, hfill⟩ := hos
  have hempty : wstr.isEmpty = false := by
    cases wstr with
    | nil => exact absurd rfl hne
    | cons a l => rfl
  simp only [ClipboardHandler.WideStringToUtf8, hempty, Bool.false_eq_true, if_false, hsize,
    hfill, utf8Text]
  congr 1
  simp [writeInto]

/-- Claim C7: when the file-drop data has `n` entries, the length query of entry `i`
answers `len i`, and for a non-zero length (below `2 ^ 32 - 1`) the copy into the buffer of
`len i + 1` code units delivers the name `entry i` and its terminator, and the operating
system converts that name to UTF-8 as documented, `GetClipboardImagePaths`, run as the
acquisition number `k`, returns the UTF-8 conversions `utf8Text (entry i)` of the entries
with a non-zero length, in index order, skipping the others; with no zero length the list
has `n` elements; and when no image text was obtained and some length is non-zero, the query
answers `Success` with type `paths` and that list as data. -/
theorem paths_in_clipboard_order (os : Win32) (arguments : Option EncodableValue)
    (k : Nat) (cb : Clipboard) (hDrop n : Nat) (len : Nat → Nat) (entry : Nat → List Nat)
    (hopen : os.OpenClipboard k = some cb)
    (hformat : cb.IsClipboardFormatAvailable CF_HDROP = true)
    (hdata : cb.GetClipboardData CF_HDROP = some hDrop)
    (hcount : (cb.DragQueryFileW hDrop 0xFFFFFFFF none).1 = n)
    (hlen : ∀ i, i < n → (cb.DragQueryFileW hDrop i none).1 = len i)
    (hentry : ∀ i, i < n → len i ≠ 0 →
      (entry i).length = len i ∧ len i + 1 < UINT_MOD ∧
        (cb.DragQueryFileW hDrop i (some (len i + 1))).2 = entry i ++ [0] ∧
        ConvertsToUtf8 os (entry i)) :
    (ClipboardHandler.GetClipboardImagePaths os k).1 =
        ((List.range n).filter (fun i => len i ≠ 0)).map (fun i => utf8Text (entry i)) ∧
      ((∀ i, i < n → len i ≠ 0) →
        (ClipboardHandler.GetClipboardImagePaths os k).1 =
            (List.range n).map (fun i => utf8Text (entry i)) ∧
          (ClipboardHandler.GetClipboardImagePaths os k).1.length = n) ∧
      (k = 1 → (ClipboardHandler.GetClipboardImage os 0).1 = "" → (∃ i, i < n ∧ len i ≠ 0) →
        responses (clipboardQuery os arguments) =
          [.Success (.map [(.string "type", .string "paths"),
            (.string "data", .list ((((List.range n).filter (fun i => len i ≠ 0)).map
              (fun i => utf8Text (entry i))).map EncodableValue.string))])]) := by
  have hpaths : (ClipboardHandler.GetClipboardImagePaths os k).1 =
      ((List.range n).filter (fun i => len i ≠ 0)).map (fun i => utf8Text (entry i)) := by
    rw [GetClipboardImagePaths_present os k cb hDrop hopen hformat hdata, hcount]
    apply flatten_map_filter
    intro i hi
    have hin : i < n := List.mem_range.1 hi
    by_cases hz : len i = 0
    · simp only [hz, ne_eq, not_true_eq_false, decide_False, Bool.false_eq_true, if_false]
      exact stepPaths_skipped os cb hDrop i ((hlen i hin).trans hz)
    · obtain ⟨h1, h2, h3, h4⟩ := hentry i hin hz
      simp only [hz, ne_eq, not_false_eq_true, decide_True, if_true]
      have hnonempty : entry i ≠ [] := by
        intro hnil
        rw [hnil] at h1
        exact hz h1.symm
      rw [← WideStringToUtf8_documented os (entry i) hnonempty h4]
      apply stepPaths_entry
      · rw [h1]; exact hlen i hin
      · rw [h1]; exact hz
      · rw [h1]; exact h2
      · rw [h1]; exact h3
  refine ⟨hpaths, ?_, ?_⟩
  · intro hall
    have hfilter : (List.range n).filter (fun i => len i ≠ 0) = List.range n := by
      rw [List.filter_eq_self]
      intro i hi
      simpa using hall i (List.mem_range.1 hi)
    rw [hpaths, hfilter]
    simp
  · intro hk himage hsome
    subst hk
    obtain ⟨i, hin, hz⟩ := hsome
    have hne : (ClipboardHandler.GetClipboardImagePaths os 1).1 ≠ [] := by
      rw [hpaths]
      intro hnil
      have hmem : i ∈ (List.range n).filter (fun i => len i ≠ 0) := by
        simp [List.mem_filter, hin, hz]
      rw [List.map_eq_nil_iff] at hnil
      rw [hnil] at hmem
      exact List.not_mem_nil _ hmem
    rw [clipboardQuery_responses]
    simp only [himage, ne_eq, not_true_eq_false, if_false, hne, not_false_eq_true, if_true]
    rw [hpaths]
    rfl

/-- Witness for C7: the dropped files `a.png`, `é.png`, `c.png` with an unnamed entry
between the first two; the name `é.png` takes six bytes in UTF-8. -/
theorem paths_in_clipboard_order_witness :
    (ClipboardHandler.GetClipboardImagePaths (Sample.always (Sample.fileDropClipboard
        [Sample.aPng, [], Sample.ePng, Sample.cPng])) 1).1 =
        ["a.png", String.mk ([195, 169, 46, 112, 110, 103].map Char.ofNat), "c.png"] ∧
      responses (clipboardQuery (Sample.always (Sample.fileDropClipboard
        [Sample.aPng, [], Sample.ePng, Sample.cPng])) none) =
        [.Success (.map [(.string "type", .string "paths"),
          (.string "data", .list [.string "a.png",
            .string (String.mk ([195, 169, 46, 112, 110, 103].map Char.ofNat)),
            .string "c.png"])])] := by
  have h := paths_in_clipboard_order (Sample.always (Sample.fileDropClipboard
      [Sample.aPng, [], Sample.ePng, Sample.cPng])) none 1
    (Sample.fileDropClipboard [Sample.aPng, [], Sample.ePng, Sample.cPng]) 7 4
    (fun i => ([Sample.aPng, [], Sample.ePng, Sample.cPng].getD i []).length)
    (fun i => [Sample.aPng, [], Sample.ePng, Sample.cPng].getD i [])
    rfl rfl rfl rfl (by decide)
    (by
      intro i hi _
      refine ⟨rfl, ?_, ?_, ?_, ?_⟩ <;> (interval_cases i <;> first | rfl | decide))
  exact ⟨h.1, h.2.2 rfl rfl ⟨0, by decide, by decide⟩⟩

end Dora
